import Mathlib

/-!
Shallow embedding of the core of the `taxy` reverse proxy
(certificate keyring, TCP port context, listener pool) in Lean 4,
together with proofs settling the specification claims.

Sources embedded:
* `src/taxy/src/keyring/certs.rs` (`Cert`, its comparator, `Cert::new`,
  `Cert::has_subject_name`)
* `src/taxy/src/keyring/mod.rs` (`Keyring`, `add`, `delete`)
* `src/taxy/src/proxy/tcp.rs` (`TcpPortContext`: `new`, `apply`,
  `start_proxy`, address parsing)
* `src/taxy/src/server/listener.rs` (`TcpListenerPool::update` bind-error
  mapping)

Conventions: Rust machine integers are modelled as `Nat`/`Int` with explicit
wrapping (`% 2 ^ 64` for `usize` on a 64-bit platform); byte strings that the
code reads as UTF-8 text are modelled as `String` (the code's `read_line`
rejects non-UTF-8 input); external library calls (sha2, rustls-pemfile,
x509-parser, serde_qs, pkcs8) are modelled as components of an explicit
environment record so that theorems quantify over their behaviour.
-/

namespace Taxy

/-! ## Basic data model (taxy-api) -/

/-- IP address, abstracting the numeric payload of `std::net::IpAddr`. -/
inductive IpAddr where
  | V4 (a : Nat)
  | V6 (a : Nat)
deriving DecidableEq, Repr

/-- Modelled from the spec: `SubjectName` (its parser lives in
`taxy-api/src/subject_name.rs`, which is not part of the provided sources).
Spec §3: "a tagged variant with three forms: exact DNS name, wildcard DNS
name (single leading label replaced), IPv4/IPv6 literal". Only the variant
structure is needed here; `Cert::has_subject_name` matches on it. -/
inductive SubjectName where
  | DnsName (name : String)
  | WildcardDnsName (base : String)
  | IPAddress (addr : IpAddr)
deriving DecidableEq, Repr

/-- `taxy_api::cert::CertMetadata`; `created_at` (a `SystemTime` serialized
as unix seconds) is modelled by the seconds value. -/
structure CertMetadata where
  acme_id : String
  created_at : Nat
  is_trusted : Bool
deriving DecidableEq, Repr

/-! ## Certificate (src/taxy/src/keyring/certs.rs) -/

/-- `Cert` from `keyring/certs.rs`. `x509_parser::time::ASN1Time` values are
modelled by their integer timestamps (their `PartialOrd` is the order on
timestamps); `SecretDocument` (the decoded private key) by its DER bytes. -/
structure Cert where
  id : String
  key : List Nat
  raw_chain : String
  raw_key : String
  fingerprint : String
  issuer : String
  root_cert : Option String
  san : List SubjectName
  not_after : Int
  not_before : Int
  metadata : Option CertMetadata
deriving DecidableEq, Repr

/-- `self.metadata.as_ref().map(|meta| meta.is_trusted).unwrap_or_default()`. -/
def Cert.trustedFlag (c : Cert) : Bool :=
  (c.metadata.map CertMetadata.is_trusted).getD false

/-- The comparator from `impl PartialOrd for Cert` (certs.rs:56-77).
The Rust code computes, with `then_with` short-circuiting exactly like
`Ordering.then`:
`other.trusted.cmp(self.trusted)
   .then(other.not_before.cmp(self.not_before))
   .then(self.not_after.cmp(other.not_after))
   .then(self.fingerprint.cmp(other.fingerprint))`. -/
def Cert.cmp (c₁ c₂ : Cert) : Ordering :=
  (((compare c₂.trustedFlag c₁.trustedFlag).then
    (compare c₂.not_before c₁.not_before)).then
    (compare c₁.not_after c₂.not_after)).then
    (compare c₁.fingerprint c₂.fingerprint)

/-- `Cert.cmp` is the lexicographic composition of keyed comparators:
the trust flag and `not_before` compared in reverse, then `not_after`
and the fingerprint compared forward. -/
theorem Cert.cmp_eq_lex : Cert.cmp =
    compareLex (compareLex (compareLex (flip (compareOn Cert.trustedFlag))
      (flip (compareOn Cert.not_before))) (compareOn Cert.not_after))
      (compareOn Cert.fingerprint) := rfl

instance : Batteries.TransCmp Cert.cmp := by
  rw [Cert.cmp_eq_lex]; infer_instance

/-- The certificate comparator exactly as the claim words it: identical to
`Cert.cmp` except that the claim breaks final ties by the *larger*
fingerprint sorting earlier, i.e. the fingerprints are compared in reverse. -/
def claimCmp (c₁ c₂ : Cert) : Ordering :=
  (((compare c₂.trustedFlag c₁.trustedFlag).then
    (compare c₂.not_before c₁.not_before)).then
    (compare c₁.not_after c₂.not_after)).then
    (compare c₂.fingerprint c₁.fingerprint)

/-- `CERT_ID_LENGTH` (certs.rs:16). -/
def CERT_ID_LENGTH : Nat := 20

/-- The byte slice `&s[..n]` on an ASCII string, modelled as the first `n`
characters. -/
def takePrefix (s : String) (n : Nat) : String := ⟨s.data.take n⟩

/-- A sample certificate, used to evaluate the comparator at concrete
inputs. -/
def certOf (fp : String) (nb na : Int) (meta : Option CertMetadata) : Cert :=
  { id := takePrefix fp CERT_ID_LENGTH, key := [], raw_chain := "", raw_key := "",
    fingerprint := fp, issuer := "CN=test", root_cert := none, san := [],
    not_after := na, not_before := nb, metadata := meta }

theorem eq_then_o (o : Ordering) : Ordering.eq.then o = o := rfl

theorem lt_then_o (o : Ordering) : Ordering.lt.then o = .lt := rfl

/-- **C1 (amended).** The certificate comparator orders certificates as
follows: a trusted certificate sorts earlier than an untrusted one; among
equally-trusted certificates the later `not_before` sorts earlier; ties are
then broken by earlier `not_after`, then by lexicographically **smaller**
fingerprint (the code compares `self.fingerprint.cmp(&other.fingerprint)`
without inverting it, so the smaller fingerprint is preferred — not the
larger one as the claim states); the comparator is a total, deterministic
order (antisymmetric, reflexive-on-equal-keys, transitive). -/
theorem C1_cert_comparator :
    (∀ c₁ c₂ : Cert, c₁.trustedFlag = true → c₂.trustedFlag = false →
      Cert.cmp c₁ c₂ = .lt) ∧
    (∀ c₁ c₂ : Cert, c₁.trustedFlag = c₂.trustedFlag →
      c₂.not_before < c₁.not_before → Cert.cmp c₁ c₂ = .lt) ∧
    (∀ c₁ c₂ : Cert, c₁.trustedFlag = c₂.trustedFlag →
      c₁.not_before = c₂.not_before → c₁.not_after < c₂.not_after →
      Cert.cmp c₁ c₂ = .lt) ∧
    (∀ c₁ c₂ : Cert, c₁.trustedFlag = c₂.trustedFlag →
      c₁.not_before = c₂.not_before → c₁.not_after = c₂.not_after →
      c₁.fingerprint < c₂.fingerprint → Cert.cmp c₁ c₂ = .lt) ∧
    (∀ c₁ c₂ : Cert, (Cert.cmp c₁ c₂).swap = Cert.cmp c₂ c₁) ∧
    (∀ c : Cert, Cert.cmp c c = .eq) ∧
    (∀ c₁ c₂ : Cert, Cert.cmp c₁ c₂ = .eq ↔
      (c₁.trustedFlag = c₂.trustedFlag ∧ c₁.not_before = c₂.not_before ∧
       c₁.not_after = c₂.not_after ∧ c₁.fingerprint = c₂.fingerprint)) ∧
    (∀ c₁ c₂ c₃ : Cert, Cert.cmp c₁ c₂ = .lt → Cert.cmp c₂ c₃ = .lt →
      Cert.cmp c₁ c₃ = .lt) := by
  refine ⟨?_, ?_, ?_, ?_, ?_, ?_, ?_, ?_⟩
  · intro c₁ c₂ h1 h2
    simp only [Cert.cmp, h1, h2]
    rfl
  · intro c₁ c₂ h1 h2
    have e1 : compare c₂.trustedFlag c₁.trustedFlag = .eq :=
      compare_eq_iff_eq.2 h1.symm
    have e2 : compare c₂.not_before c₁.not_before = .lt :=
      compare_lt_iff_lt.2 h2
    simp only [Cert.cmp, e1, e2, eq_then_o, lt_then_o]
  · intro c₁ c₂ h1 h2 h3
    have e1 : compare c₂.trustedFlag c₁.trustedFlag = .eq :=
      compare_eq_iff_eq.2 h1.symm
    have e2 : compare c₂.not_before c₁.not_before = .eq :=
      compare_eq_iff_eq.2 h2.symm
    have e3 : compare c₁.not_after c₂.not_after = .lt :=
      compare_lt_iff_lt.2 h3
    simp only [Cert.cmp, e1, e2, e3, eq_then_o, lt_then_o]
  · intro c₁ c₂ h1 h2 h3 h4
    have e1 : compare c₂.trustedFlag c₁.trustedFlag = .eq :=
      compare_eq_iff_eq.2 h1.symm
    have e2 : compare c₂.not_before c₁.not_before = .eq :=
      compare_eq_iff_eq.2 h2.symm
    have e3 : compare c₁.not_after c₂.not_after = .eq :=
      compare_eq_iff_eq.2 h3
    have e4 : compare c₁.fingerprint c₂.fingerprint = .lt :=
      compare_lt_iff_lt.2 h4
    simp only [Cert.cmp, e1, e2, e3, e4, eq_then_o, lt_then_o]
  · intro c₁ c₂
    exact Batteries.OrientedCmp.symm c₁ c₂
  · intro c
    exact Batteries.OrientedCmp.cmp_refl
  · intro c₁ c₂
    simp only [Cert.cmp, Ordering.then_eq_eq, compare_eq_iff_eq]
    constructor
    · rintro ⟨⟨⟨a, b⟩, c⟩, d⟩
      exact ⟨a.symm, b.symm, c, d⟩
    · rintro ⟨a, b, c, d⟩
      exact ⟨⟨⟨a.symm, b.symm⟩, c⟩, d⟩
  · intro c₁ c₂ c₃ h1 h2
    exact Batteries.TransCmp.lt_trans h1 h2

/-- **C1 counterexample.** Two certificates that agree on trust, `not_before`
and `not_after` and differ only in fingerprint (`"aa"` vs `"bb"`): the code's
comparator sorts the lexicographically *smaller* fingerprint earlier
(`Cert.cmp = .lt`), while the claim's comparator — larger fingerprint
preferred — sorts it later (`claimCmp = .gt`). -/
theorem C1_counterexample :
    Cert.cmp (certOf "aa" 0 0 none) (certOf "bb" 0 0 none) = .lt ∧
    claimCmp (certOf "aa" 0 0 none) (certOf "bb" 0 0 none) = .gt := by
  constructor <;> decide

/-- Witness for C1: every hypothesis of `C1_cert_comparator` discharged at
concrete certificates. -/
theorem C1_cert_comparator_witness :
    Cert.cmp (certOf "aa" 5 9 (some ⟨"x", 0, true⟩)) (certOf "bb" 5 9 none) = .lt ∧
    Cert.cmp (certOf "aa" 7 9 none) (certOf "bb" 5 9 none) = .lt ∧
    Cert.cmp (certOf "aa" 5 8 none) (certOf "bb" 5 9 none) = .lt ∧
    Cert.cmp (certOf "aa" 5 9 none) (certOf "bb" 5 9 none) = .lt ∧
    (Cert.cmp (certOf "aa" 5 9 none) (certOf "bb" 5 9 none) = .eq ↔
      ((certOf "aa" 5 9 none).trustedFlag = (certOf "bb" 5 9 none).trustedFlag ∧
       (5 : Int) = 5 ∧ (9 : Int) = 9 ∧ "aa" = "bb")) ∧
    Cert.cmp (certOf "aa" 7 9 none) (certOf "cc" 5 9 none) = .lt :=
  ⟨C1_cert_comparator.1 _ _ (by decide) (by decide),
   C1_cert_comparator.2.1 _ _ (by decide) (by decide),
   C1_cert_comparator.2.2.1 _ _ (by decide) (by decide) (by decide),
   C1_cert_comparator.2.2.2.1 _ _ (by decide) (by decide) (by decide)
     (by rw [String.lt_iff_toList_lt]; decide),
   C1_cert_comparator.2.2.2.2.2.2.1 _ _,
   C1_cert_comparator.2.2.2.2.2.2.2 _ (certOf "bb" 5 9 none) _
     (C1_cert_comparator.2.1 _ _ (by decide) (by decide))
     (C1_cert_comparator.2.2.2.1 _ _ (by decide) (by decide) (by decide)
       (by rw [String.lt_iff_toList_lt]; decide))⟩

/-! ## Keyring (src/taxy/src/keyring/mod.rs) -/

/-- Modelled from the spec: `AcmeEntry` (`keyring/acme.rs` is not part of the
provided sources). Only its identifier is relevant to the keyring operations;
the remaining payload is opaque. -/
structure AcmeEntry where
  id : String
deriving DecidableEq, Repr

/-- `KeyringItem` from `keyring/mod.rs`. -/
inductive KeyringItem where
  | ServerCert (cert : Cert)
  | Acme (acme : AcmeEntry)
deriving DecidableEq, Repr

/-- `KeyringItem::id`. -/
def KeyringItem.id : KeyringItem → String
  | .ServerCert cert => cert.id
  | .Acme acme => acme.id

/-- `Keyring` from `keyring/mod.rs`. The Rust `HashMap<String, KeyringItem>`
is modelled extensionally as its lookup function; `HashMap::insert` and
`HashMap::remove` become pointwise updates. -/
@[ext]
structure Keyring where
  certs : String → Option KeyringItem

/-- `Keyring::add`: `self.certs.insert(item.id().to_string(), item)` —
an upsert keyed by the item's identifier. -/
def Keyring.add (k : Keyring) (item : KeyringItem) : Keyring :=
  ⟨fun s => if s = item.id then some item else k.certs s⟩

/-- `Keyring::delete`: `self.certs.remove(id)` — returns the removed item
(if any) alongside the new keyring state. -/
def Keyring.delete (k : Keyring) (id : String) : Option KeyringItem × Keyring :=
  (k.certs id, ⟨fun s => if s = id then none else k.certs s⟩)

/-- **C3 (amended).** `add x` then `delete x.id` always returns `Some x`;
the keyring state is restored **provided the keyring held no item under
`x.id` beforehand** (the claim's unconditional form fails when the
identifier is already occupied: the occupant is overwritten and lost). -/
theorem C3_keyring_round_trip :
    (∀ (k : Keyring) (x : KeyringItem),
      ((k.add x).delete x.id).1 = some x) ∧
    (∀ (k : Keyring) (x : KeyringItem), k.certs x.id = none →
      ((k.add x).delete x.id).2 = k) := by
  constructor
  · intro k x
    simp [Keyring.add, Keyring.delete]
  · intro k x h
    ext s
    simp only [Keyring.add, Keyring.delete]
    by_cases hs : s = x.id
    · subst hs
      simp [h]
    · simp [hs]

/-- A keyring item stored under identifier `"id000000000000000000"`. -/
def sampleItemA : KeyringItem :=
  .ServerCert { certOf "id000000000000000000aaaa" 0 0 none with
                id := "id000000000000000000" }

/-- A different item with the same identifier (different fingerprint, equal
20-character prefix). -/
def sampleItemB : KeyringItem :=
  .ServerCert { certOf "id000000000000000000bbbb" 0 0 none with
                id := "id000000000000000000" }

/-- The keyring that already holds `sampleItemA`. -/
def sampleKeyring : Keyring :=
  ⟨fun s => if s = "id000000000000000000" then some sampleItemA else none⟩

/-- **C3 counterexample.** Adding `sampleItemB` (whose identifier collides
with the stored `sampleItemA`) and then deleting that identifier does return
`Some sampleItemB`, but the keyring state is *not* the state before the two
operations: the original occupant `sampleItemA` is gone. -/
theorem C3_counterexample :
    ((sampleKeyring.add sampleItemB).delete sampleItemB.id).2 ≠ sampleKeyring := by
  intro h
  have h2 := congrArg (fun k => k.certs "id000000000000000000") h
  simp only [Keyring.add, Keyring.delete, sampleKeyring] at h2
  revert h2
  decide

/-- Witness for C3 at a concrete keyring and item with a fresh identifier. -/
theorem C3_keyring_round_trip_witness :
    ((Keyring.add ⟨fun _ => none⟩ sampleItemA).delete sampleItemA.id).1 =
      some sampleItemA ∧
    ((Keyring.add ⟨fun _ => none⟩ sampleItemA).delete sampleItemA.id).2 =
      (⟨fun _ => none⟩ : Keyring) :=
  ⟨C3_keyring_round_trip.1 ⟨fun _ => none⟩ sampleItemA,
   C3_keyring_round_trip.2 ⟨fun _ => none⟩ sampleItemA rfl⟩

/-! ## TCP proxy (src/taxy/src/proxy/tcp.rs) -/

/-- The multiaddr protocol segments used by tcp.rs (the `multiaddr` crate has
further variants, but only these are consumed by the code). -/
inductive Protocol where
  | Ip4 (addr : Nat)
  | Ip6 (addr : Nat)
  | Tcp (port : Nat)
  | Dns (name : String)
  | Tls
deriving DecidableEq, Repr

/-- A multi-layer address is its protocol stack. -/
abbrev Multiaddr := List Protocol

/-- `std::net::SocketAddr`. -/
structure SocketAddr where
  ip : IpAddr
  port : Nat
deriving DecidableEq, Repr

/-- `rustls::client::ServerName` (the two variants tcp.rs constructs). -/
inductive ServerName where
  | DnsName (name : String)
  | IpAddress (addr : IpAddr)
deriving DecidableEq, Repr

/-- `Connection` from tcp.rs. -/
structure Connection where
  name : ServerName
  port : Nat
  tls : Bool
deriving DecidableEq, Repr

/-- The variants of `taxy_api::error::Error` produced by the embedded code. -/
inductive Error where
  | InvalidListeningAddress (addr : Multiaddr)
  | InvalidServerAddress (addr : Multiaddr)
  | TlsTerminationConfigMissing
  | FailedToReadCertificate
  | FailedToDecryptPrivateKey
deriving DecidableEq, Repr

/-- `TlsTermination` configuration (`taxy_api`): the set of acceptable server
names for the port. Shape taken from spec §4.4. -/
structure TlsTerminationConfig where
  server_names : List String
deriving DecidableEq, Repr

/-- Modelled from the spec: `TlsTermination` (`src/taxy/src/proxy/tls.rs` is
not part of the provided sources). Spec §4.4: it holds the termination
configuration and materializes an acceptor on `setup()`; before `setup` there
is no acceptor. Constructor failure is not modelled (§4.4 describes none);
the acceptor itself is opaque (a token). -/
structure TlsTermination where
  config : TlsTerminationConfig
  acceptor : Option Nat
deriving DecidableEq, Repr

/-- `TlsTermination::new(tls, vec![])` as spec-modelled above. -/
def TlsTermination.new (config : TlsTerminationConfig) : TlsTermination :=
  ⟨config, none⟩

/-- `taxy_api::port::SocketState` (shape from spec §3 and listener.rs use). -/
inductive SocketState where
  | Unknown
  | Listening
  | PortAlreadyInUse
  | PermissionDenied
  | AddressNotAvailable
  | Error
deriving DecidableEq, Repr

/-- The `state` component of `PortStatus`: socket state plus optional TLS
state (opaque). -/
structure PortState where
  socket : SocketState
  tls : Option Nat
deriving DecidableEq, Repr

/-- `taxy_api::port::PortStatus` (shape from spec §3): state plus
`started_at` (a timestamp, opaque here). -/
structure PortStatus where
  state : PortState
  started_at : Option Nat
deriving DecidableEq, Repr

/-- The `Default::default()` port status (socket state `Unknown`). -/
def PortStatus.default : PortStatus := ⟨⟨.Unknown, none⟩, none⟩

/-- `PortEntry` fields consumed by tcp.rs (shape from spec §4.5/§6; the
`taxy-api` port module is not among the provided sources). -/
structure UpstreamServer where
  addr : Multiaddr
deriving DecidableEq, Repr

structure PortOptions where
  upstream_servers : List UpstreamServer
  tls_termination : Option TlsTerminationConfig
deriving DecidableEq, Repr

structure PortDesc where
  listen : Multiaddr
  opts : PortOptions
deriving DecidableEq, Repr

structure PortEntry where
  id : String
  port : PortDesc
deriving DecidableEq, Repr

/-- External behaviour consumed by tcp.rs: `rustls`'s
`ServerName::try_from(&str)`, which validates a DNS name (and may also
recognise an IP literal). -/
structure TcpEnv where
  tryFromDns : String → Option ServerName

/-- `multiaddr_to_tcp` (tcp.rs:239-250): accepts `/ip4/../tcp/P[..]` or
`/ip6/../tcp/P[..]` with `P > 0`. -/
def multiaddr_to_tcp (addr : Multiaddr) : Except Error SocketAddr :=
  match addr with
  | .Ip4 a :: .Tcp port :: _ =>
    if port > 0 then .ok ⟨.V4 a, port⟩
    else .error (.InvalidListeningAddress addr)
  | .Ip6 a :: .Tcp port :: _ =>
    if port > 0 then .ok ⟨.V6 a, port⟩
    else .error (.InvalidListeningAddress addr)
  | _ => .error (.InvalidListeningAddress addr)

/-- `multiaddr_to_host` (tcp.rs:252-274): additionally accepts
`/dns/NAME/tcp/P[..]`; the outbound-TLS flag is set iff the stack's last
element is `/tls`. -/
def multiaddr_to_host (env : TcpEnv) (addr : Multiaddr) : Except Error Connection :=
  let tls := addr.getLast? == some Protocol.Tls
  match addr with
  | .Ip4 a :: .Tcp port :: _ =>
    if port > 0 then .ok ⟨.IpAddress (.V4 a), port, tls⟩
    else .error (.InvalidServerAddress addr)
  | .Ip6 a :: .Tcp port :: _ =>
    if port > 0 then .ok ⟨.IpAddress (.V6 a), port, tls⟩
    else .error (.InvalidServerAddress addr)
  | .Dns name :: .Tcp port :: _ =>
    if port > 0 then
      match env.tryFromDns name with
      | some sn => .ok ⟨sn, port, tls⟩
      | none => .error (.InvalidServerAddress addr)
    else .error (.InvalidServerAddress addr)
  | _ => .error (.InvalidServerAddress addr)

/-- The `for server in &entry.port.opts.upstream_servers` loop of
`TcpPortContext::new`: parse each upstream in order, first error wins. -/
def parseServers (env : TcpEnv) : List UpstreamServer → Except Error (List Connection)
  | [] => .ok []
  | s :: rest => do
    let c ← multiaddr_to_host env s.addr
    let cs ← parseServers env rest
    .ok (c :: cs)

/-- `usize` arithmetic is modelled modulo `2 ^ 64` (64-bit platform). -/
def usizeSize : Nat := 2 ^ 64

/-- `TcpPortContext` from tcp.rs (the tracing `Span` is kept as an opaque
string; `Arc<Notify>` handles are identity tokens, so that preservation of
the *same* notifier is expressible). -/
structure TcpPortContext where
  listen : SocketAddr
  servers : List Connection
  status : PortStatus
  span : String
  tls_termination : Option TlsTermination
  tls_client_config : Option Nat
  round_robin_counter : Nat
  stop_notifier : Nat
deriving DecidableEq, Repr

/-- `TcpPortContext::new` (tcp.rs:38-71): parse the listen address, parse
every upstream, then build TLS termination if declared, or fail with
`TlsTerminationConfigMissing` if the listen stack contains `/tls`. -/
def TcpPortContext.new (env : TcpEnv) (entry : PortEntry) :
    Except Error TcpPortContext := do
  let listen ← multiaddr_to_tcp entry.port.listen
  let servers ← parseServers env entry.port.opts.upstream_servers
  let tls_termination ←
    match entry.port.opts.tls_termination with
    | some tls => Except.ok (some (TlsTermination.new tls))
    | none =>
      if entry.port.listen.any (· == Protocol.Tls) then
        Except.error Error.TlsTerminationConfigMissing
      else Except.ok none
  Except.ok { listen := listen, servers := servers,
              status := PortStatus.default, span := entry.id,
              tls_termination := tls_termination, tls_client_config := none,
              round_robin_counter := 0, stop_notifier := 0 }

/-- `TcpPortContext::apply` (tcp.rs:113-119): wholesale replacement by `new`,
carrying over exactly `round_robin_counter` and `stop_notifier`. -/
def TcpPortContext.apply (ctx new : TcpPortContext) : TcpPortContext :=
  { new with round_robin_counter := ctx.round_robin_counter,
             stop_notifier := ctx.stop_notifier }

/-- The data captured by the task spawned in `start_proxy`: the chosen
upstream, the (conn.tls-filtered) outbound TLS config, the acceptor from the
TLS termination, and the stop notifier. -/
structure SpawnedTask where
  conn : Connection
  tls_client_config : Option Nat
  tls_acceptor : Option Nat
  stop_notifier : Nat
deriving DecidableEq, Repr

/-- `TcpPortContext::start_proxy` (tcp.rs:144-175). With an empty upstream
list the accepted stream is shut down and nothing else happens (no index is
computed). Otherwise the upstream at `round_robin_counter % servers.len()` is
chosen and the counter is incremented with wrapping (`usize::wrapping_add`). -/
def TcpPortContext.start_proxy (ctx : TcpPortContext) :
    Option SpawnedTask × TcpPortContext :=
  if h : ctx.servers = [] then
    (none, ctx)
  else
    let idx := ctx.round_robin_counter % ctx.servers.length
    let conn := ctx.servers.get ⟨idx, Nat.mod_lt _ (List.length_pos.2 h)⟩
    let task : SpawnedTask :=
      { conn := conn,
        tls_client_config := if conn.tls then ctx.tls_client_config else none,
        tls_acceptor := ctx.tls_termination.bind TlsTermination.acceptor,
        stop_notifier := ctx.stop_notifier }
    (some task,
     { ctx with round_robin_counter :=
         (ctx.round_robin_counter + 1) % usizeSize })

/-- `m` consecutive accepted connections dispatched through `start_proxy`,
collecting the spawned task (if any) of each. -/
def runProxy : TcpPortContext → Nat → List (Option SpawnedTask) × TcpPortContext
  | ctx, 0 => ([], ctx)
  | ctx, m + 1 =>
    (ctx.start_proxy.1 :: (runProxy ctx.start_proxy.2 m).1,
     (runProxy ctx.start_proxy.2 m).2)

/-- The upstream connections actually handed to forwarding tasks over `m`
consecutive connections. -/
def spawnedConns (ctx : TcpPortContext) (m : Nat) : List Connection :=
  ((runProxy ctx m).1).filterMap (fun t => t.map SpawnedTask.conn)

/-- **C9 (confirmed).** `apply(new)` replaces listen address, upstream list,
status, span, TLS termination and TLS client config with the new entry's
values, while exactly the round-robin counter and the stop `Notify` handle
are carried over from the old context; consequently a task spawned after the
edit captures the same stop notifier as one spawned before it. -/
theorem C9_apply_frame :
    (∀ ctx new : TcpPortContext,
      (ctx.apply new).listen = new.listen ∧
      (ctx.apply new).servers = new.servers ∧
      (ctx.apply new).status = new.status ∧
      (ctx.apply new).span = new.span ∧
      (ctx.apply new).tls_termination = new.tls_termination ∧
      (ctx.apply new).tls_client_config = new.tls_client_config ∧
      (ctx.apply new).round_robin_counter = ctx.round_robin_counter ∧
      (ctx.apply new).stop_notifier = ctx.stop_notifier) ∧
    (∀ ctx new : TcpPortContext, ∀ task,
      (ctx.apply new).start_proxy.1 = some task →
      task.stop_notifier = ctx.stop_notifier) := by
  constructor
  · intro ctx new
    exact ⟨rfl, rfl, rfl, rfl, rfl, rfl, rfl, rfl⟩
  · intro ctx new task h
    unfold TcpPortContext.start_proxy at h
    split at h
    · exact absurd h (by simp)
    · simp only [Option.some.injEq] at h
      subst h
      rfl

/-- A concrete connection for witnesses. -/
def connAt (p : Nat) : Connection := ⟨.IpAddress (.V4 2130706433), p, false⟩

/-- A concrete port context for witnesses: given upstreams and an initial
round-robin counter. -/
def ctxOf (servers : List Connection) (c : Nat) : TcpPortContext :=
  { listen := ⟨.V4 0, 1⟩, servers := servers, status := PortStatus.default,
    span := "sample", tls_termination := none, tls_client_config := none,
    round_robin_counter := c, stop_notifier := 7 }

/-- Witness for C9: the frame equalities and the stop-notifier capture at
concrete contexts. -/
theorem C9_apply_frame_witness :
    ((ctxOf [] 3).apply (ctxOf [connAt 1] 0)).round_robin_counter = 3 ∧
    ∀ task, ((ctxOf [] 3).apply (ctxOf [connAt 1] 0)).start_proxy.1 = some task →
      task.stop_notifier = 7 :=
  ⟨(C9_apply_frame.1 (ctxOf [] 3) (ctxOf [connAt 1] 0)).2.2.2.2.2.2.1,
   fun task h => C9_apply_frame.2 (ctxOf [] 3) (ctxOf [connAt 1] 0) task h⟩

/-- **C10 (confirmed).** `start_proxy` on a context with an empty upstream
list spawns no forwarding task (the accepted stream is merely shut down) and
leaves the context — in particular the round-robin counter — unchanged; the
branch that computes `round_robin_counter % servers.len()` is never reached,
so no modulo-by-zero can occur. -/
theorem C10_empty_upstreams (ctx : TcpPortContext) (h : ctx.servers = []) :
    ctx.start_proxy = (none, ctx) := by
  unfold TcpPortContext.start_proxy
  simp [h]

/-- Witness for C10 at a concrete context with no upstream servers. -/
theorem C10_empty_upstreams_witness :
    (ctxOf [] 5).start_proxy = (none, ctxOf [] 5) :=
  C10_empty_upstreams (ctxOf [] 5) rfl

/-- Placeholder connection used only as the (never-reached) default of
`List.getD` when describing in-bounds indexing. -/
def dummyConn : Connection := ⟨.DnsName "", 0, false⟩

/-- The task `start_proxy` spawns when it selects index `i`. -/
def mkTask (ctx : TcpPortContext) (i : Nat) : SpawnedTask :=
  { conn := ctx.servers.getD i dummyConn,
    tls_client_config :=
      if (ctx.servers.getD i dummyConn).tls then ctx.tls_client_config else none,
    tls_acceptor := ctx.tls_termination.bind TlsTermination.acceptor,
    stop_notifier := ctx.stop_notifier }

theorem mkTask_counter_irrelevant (ctx : TcpPortContext) (x i : Nat) :
    mkTask { ctx with round_robin_counter := x } i = mkTask ctx i := rfl

/-- One `start_proxy` step on a nonempty upstream list: the task for
index `round_robin_counter % servers.length` is spawned and the counter
advances by one modulo `2 ^ 64`. -/
theorem start_proxy_nonempty (ctx : TcpPortContext) (h : ctx.servers ≠ []) :
    ctx.start_proxy =
      (some (mkTask ctx (ctx.round_robin_counter % ctx.servers.length)),
       { ctx with round_robin_counter :=
           (ctx.round_robin_counter + 1) % usizeSize }) := by
  have hlt : ctx.round_robin_counter % ctx.servers.length < ctx.servers.length :=
    Nat.mod_lt _ (List.length_pos.2 h)
  unfold TcpPortContext.start_proxy
  rw [dif_neg h]
  simp only [mkTask, List.getD_eq_getElem _ _ hlt, List.get_eq_getElem]

/-- In a window of `n` consecutive values of `(c + j) % n`, each residue
`i < n` occurs exactly once. -/
theorem countP_mod_window (n c i : Nat) (hi : i < n) :
    (List.range n).countP (fun j => (c + j) % n == i) = 1 := by
  have hn : 0 < n := Nat.lt_of_le_of_lt (Nat.zero_le i) hi
  have hj₀lt : (i + n - c % n) % n < n := Nat.mod_lt _ hn
  have hchar : ∀ j ∈ List.range n,
      ((c + j) % n == i) ↔ (j == (i + n - c % n) % n) := by
    intro j hj
    rw [List.mem_range] at hj
    have hr : c % n < n := Nat.mod_lt _ hn
    have e0 : (c + j) % n = (c % n + j) % n := by
      conv_lhs => rw [Nat.add_mod, Nat.mod_eq_of_lt hj]
    have e1 : (c % n + j) % n =
        if c % n + j < n then c % n + j else c % n + j - n := by
      split
      · exact Nat.mod_eq_of_lt (by assumption)
      · rw [Nat.mod_eq_sub_mod (by omega)]
        exact Nat.mod_eq_of_lt (by omega)
    have e2 : (i + n - c % n) % n =
        if i + n - c % n < n then i + n - c % n else i - c % n := by
      split
      · exact Nat.mod_eq_of_lt (by assumption)
      · rw [Nat.mod_eq_sub_mod (by omega)]
        have e3 : i + n - c % n - n = i - c % n := by omega
        rw [e3]
        exact Nat.mod_eq_of_lt (by omega)
    simp only [beq_iff_eq, e0, e1, e2]
    split <;> split <;> omega
  rw [List.countP_congr hchar, ← List.count_eq_countP]
  exact List.count_eq_one_of_mem (List.nodup_range n) (List.mem_range.mpr hj₀lt)

/-- Over `k` windows of `n` consecutive values of `(c + j) % n`, each
residue `i < n` occurs exactly `k` times. -/
theorem countP_mod_blocks (k n c i : Nat) (hi : i < n) :
    (List.range (k * n)).countP (fun j => (c + j) % n == i) = k := by
  induction k generalizing c with
  | zero => simp
  | succ k ih =>
    have hsplit : (k + 1) * n = n + k * n := by ring
    rw [hsplit, List.range_add, List.countP_append, List.countP_map]
    have hcongr : ∀ j ∈ List.range (k * n),
        ((fun j => (c + j) % n == i) ∘ (fun x => n + x)) j ↔
          ((c + j) % n == i) := by
      intro j hj
      simp only [Function.comp_apply, beq_iff_eq]
      have e : c + (n + j) = c + j + n := by ring
      rw [e, Nat.add_mod_right]
    rw [List.countP_congr hcongr, ih, countP_mod_window n c i hi]
    omega

/-- The selection trace of `m` consecutive connections: as long as the
counter run does not cross the `usize` wrap boundary, connection `j` gets
the task for index `(round_robin_counter + j) % servers.length`. -/
theorem runProxy_sel (m : Nat) : ∀ ctx : TcpPortContext, ctx.servers ≠ [] →
    ctx.round_robin_counter + m ≤ usizeSize →
    (runProxy ctx m).1 = (List.range m).map (fun j =>
      some (mkTask ctx ((ctx.round_robin_counter + j) % ctx.servers.length))) := by
  induction m with
  | zero =>
    intro ctx _ _
    simp [runProxy]
  | succ m ih =>
    intro ctx hne hwrap
    have hstep := start_proxy_nonempty ctx hne
    have hhead : (runProxy ctx (m + 1)).1 =
        ctx.start_proxy.1 :: (runProxy ctx.start_proxy.2 m).1 := rfl
    rw [hhead, hstep]
    rw [List.range_succ_eq_map, List.map_cons, List.map_map]
    by_cases hlast : ctx.round_robin_counter + 1 < usizeSize
    · have hctr : (ctx.round_robin_counter + 1) % usizeSize =
          ctx.round_robin_counter + 1 := Nat.mod_eq_of_lt hlast
      have htail := ih { ctx with round_robin_counter :=
          (ctx.round_robin_counter + 1) % usizeSize } hne
        (by show (ctx.round_robin_counter + 1) % usizeSize + m ≤ usizeSize
            rw [hctr]; omega)
      rw [htail]
      simp only [mkTask_counter_irrelevant, hctr, Nat.add_zero]
      refine congrArg₂ _ rfl (List.map_congr_left ?_)
      intro j _
      simp only [Function.comp_apply]
      have e : ctx.round_robin_counter + 1 + j =
          ctx.round_robin_counter + Nat.succ j := by omega
      rw [e]
    · have hm : m = 0 := by omega
      subst hm
      simp [runProxy]

/-- **C2 (amended).** With a nonempty upstream list, the task spawned for an
accepted connection targets `servers[round_robin_counter % servers.len()]`,
and the counter is then incremented by one **wrapping** modulo `2 ^ 64`
(`usize::wrapping_add`, which wraps to zero at the maximum — not saturating).
Fairness: for `n` distinct upstream servers and `k * n` consecutive
connections whose counter run does not cross the wrap boundary, each server
is selected exactly `k` times. -/
theorem C2_round_robin (ctx : TcpPortContext) (k : Nat)
    (hne : ctx.servers ≠ [])
    (hnd : ctx.servers.Nodup)
    (hwrap : ctx.round_robin_counter + k * ctx.servers.length ≤ usizeSize) :
    (ctx.start_proxy.1.map SpawnedTask.conn) =
      some (ctx.servers.getD
        (ctx.round_robin_counter % ctx.servers.length) dummyConn) ∧
    ctx.start_proxy.2.round_robin_counter =
      (ctx.round_robin_counter + 1) % usizeSize ∧
    ∀ i, (hi : i < ctx.servers.length) →
      (spawnedConns ctx (k * ctx.servers.length)).count
        (ctx.servers.get ⟨i, hi⟩) = k := by
  have hpos : 0 < ctx.servers.length := List.length_pos.2 hne
  refine ⟨?_, ?_, ?_⟩
  · rw [start_proxy_nonempty ctx hne]
    rfl
  · rw [start_proxy_nonempty ctx hne]
  · intro i hi
    unfold spawnedConns
    rw [runProxy_sel (k * ctx.servers.length) ctx hne hwrap]
    have hfm : (fun t : Option SpawnedTask => Option.map SpawnedTask.conn t) ∘
        (fun j => some (mkTask ctx
          ((ctx.round_robin_counter + j) % ctx.servers.length))) =
        some ∘ (fun j => ctx.servers.getD
          ((ctx.round_robin_counter + j) % ctx.servers.length) dummyConn) := by
      funext j
      rfl
    rw [List.filterMap_map, hfm, List.filterMap_eq_map, List.count_eq_countP,
      List.countP_map]
    have hcongr : ∀ j ∈ List.range (k * ctx.servers.length),
        ((· == ctx.servers.get ⟨i, hi⟩) ∘ (fun j => ctx.servers.getD
          ((ctx.round_robin_counter + j) % ctx.servers.length) dummyConn)) j ↔
          ((ctx.round_robin_counter + j) % ctx.servers.length == i) := by
      intro j _
      have ha : (ctx.round_robin_counter + j) % ctx.servers.length <
          ctx.servers.length := Nat.mod_lt _ hpos
      simp only [Function.comp_apply, beq_iff_eq]
      rw [List.getD_eq_getElem _ _ ha]
      rw [show ctx.servers.get ⟨i, hi⟩ = ctx.servers[i] from rfl]
      constructor
      · intro hfirst
        exact (List.Nodup.getElem_inj_iff hnd).1 hfirst
      · intro hsecond
        subst hsecond
        rfl
    rw [List.countP_congr hcongr]
    exact countP_mod_blocks k ctx.servers.length ctx.round_robin_counter i hi

/-- Three distinct upstream servers with the round-robin counter one step
before the `usize` wrap boundary. -/
def rrCtx : TcpPortContext :=
  ctxOf [connAt 1, connAt 2, connAt 3] (usizeSize - 1)

/-- **C2 counterexample.** At `round_robin_counter = 2^64 - 1` with three
upstream servers and `1 * 3` consecutive connections, the code selects
server 0 twice and server 2 never (`2^64 - 1 ≡ 0` and the counter wraps to
`0`), so "each server is selected exactly `k` times" fails; moreover the
counter after the increment is `0`, not the saturated maximum the claim's
"saturating-wrap semantics at the integer's maximum" would give. -/
theorem C2_counterexample :
    (spawnedConns rrCtx 3).count (connAt 1) = 2 ∧
    (spawnedConns rrCtx 3).count (connAt 3) = 0 ∧
    rrCtx.start_proxy.2.round_robin_counter = 0 ∧
    usizeSize - 1 ≠ 0 := by
  refine ⟨?_, ?_, ?_, ?_⟩ <;> decide

/-- Witness for C2: a two-server context, counter 0, `2 * 2` connections. -/
theorem C2_round_robin_witness :
    ((ctxOf [connAt 1, connAt 2] 0).start_proxy.1.map SpawnedTask.conn) =
      some ((ctxOf [connAt 1, connAt 2] 0).servers.getD 0 dummyConn) ∧
    (spawnedConns (ctxOf [connAt 1, connAt 2] 0) 4).count
      ((ctxOf [connAt 1, connAt 2] 0).servers.get ⟨0, by decide⟩) = 2 ∧
    (spawnedConns (ctxOf [connAt 1, connAt 2] 0) 4).count
      ((ctxOf [connAt 1, connAt 2] 0).servers.get ⟨1, by decide⟩) = 2 :=
  ⟨(C2_round_robin (ctxOf [connAt 1, connAt 2] 0) 2 (by decide) (by decide)
      (by decide)).1,
   (C2_round_robin (ctxOf [connAt 1, connAt 2] 0) 2 (by decide) (by decide)
      (by decide)).2.2 0 (by decide),
   (C2_round_robin (ctxOf [connAt 1, connAt 2] 0) 2 (by decide) (by decide)
      (by decide)).2.2 1 (by decide)⟩

/-- `multiaddr_to_tcp` never produces `TlsTerminationConfigMissing`. -/
theorem multiaddr_to_tcp_ne_ttcm (addr : Multiaddr) :
    multiaddr_to_tcp addr ≠ .error .TlsTerminationConfigMissing := by
  unfold multiaddr_to_tcp
  split <;> first
    | (split <;> simp)
    | simp

/-- `multiaddr_to_host` never produces `TlsTerminationConfigMissing`. -/
theorem multiaddr_to_host_ne_ttcm (env : TcpEnv) (addr : Multiaddr) :
    multiaddr_to_host env addr ≠ .error .TlsTerminationConfigMissing := by
  unfold multiaddr_to_host
  split <;> (try split) <;> (try split) <;> simp

theorem except_bind_ok {ε α β : Type} (a : α) (f : α → Except ε β) :
    (Except.ok a >>= f) = f a := rfl

theorem except_bind_error {ε α β : Type} (e : ε) (f : α → Except ε β) :
    ((Except.error e : Except ε α) >>= f) = Except.error e := rfl

/-- `parseServers` never produces `TlsTerminationConfigMissing`. -/
theorem parseServers_ne_ttcm (env : TcpEnv) (l : List UpstreamServer) :
    parseServers env l ≠ .error .TlsTerminationConfigMissing := by
  induction l with
  | nil => simp [parseServers]
  | cons s rest ih =>
    unfold parseServers
    cases hcase : multiaddr_to_host env s.addr with
    | error e =>
      have hne := multiaddr_to_host_ne_ttcm env s.addr
      rw [hcase] at hne
      simpa [except_bind_error] using hne
    | ok c =>
      cases hrest : parseServers env rest with
      | error e =>
        rw [hrest] at ih
        simpa [except_bind_ok, except_bind_error] using ih
      | ok cs =>
        simp [except_bind_ok]

theorem exists_ok_of_isOk {ε α : Type} {x : Except ε α} (h : x.isOk = true) :
    ∃ a, x = .ok a := by
  cases x with
  | ok a => exact ⟨a, rfl⟩
  | error e => simp [Except.isOk, Except.toBool] at h

/-- **C7 (amended).** For entries whose listen address and upstream
addresses parse successfully, construction fails with
`TlsTerminationConfigMissing` exactly when the listen stack contains `/tls`
and no TLS termination block is declared. Unconditionally, when a
termination block is declared or the listen stack has no `/tls`, this error
is never produced. (The claim's unrestricted "exactly when" fails: a
malformed listen address containing `/tls` fails earlier with
`InvalidListeningAddress`.) -/
theorem C7_tls_termination_missing :
    (∀ (env : TcpEnv) (entry : PortEntry),
      (multiaddr_to_tcp entry.port.listen).isOk = true →
      (parseServers env entry.port.opts.upstream_servers).isOk = true →
      (TcpPortContext.new env entry = .error .TlsTerminationConfigMissing ↔
        (entry.port.listen.any (· == Protocol.Tls) = true ∧
         entry.port.opts.tls_termination = none))) ∧
    (∀ (env : TcpEnv) (entry : PortEntry),
      (entry.port.opts.tls_termination ≠ none ∨
        entry.port.listen.any (· == Protocol.Tls) = false) →
      TcpPortContext.new env entry ≠ .error .TlsTerminationConfigMissing) := by
  constructor
  · intro env entry h1 h2
    obtain ⟨listen, hl⟩ := exists_ok_of_isOk h1
    obtain ⟨servers, hs⟩ := exists_ok_of_isOk h2
    unfold TcpPortContext.new
    rw [hl, hs]
    cases htls : entry.port.opts.tls_termination with
    | some tls =>
      simp [except_bind_ok]
    | none =>
      by_cases hany : entry.port.listen.any (· == Protocol.Tls) = true
      · simp [hany, except_bind_ok, except_bind_error]
      · simp [hany, except_bind_ok]
  · intro env entry hside
    unfold TcpPortContext.new
    cases hl : multiaddr_to_tcp entry.port.listen with
    | error e =>
      have hne := multiaddr_to_tcp_ne_ttcm entry.port.listen
      rw [hl] at hne
      simpa [except_bind_error] using hne
    | ok listen =>
      cases hs : parseServers env entry.port.opts.upstream_servers with
      | error e =>
        have hne := parseServers_ne_ttcm env entry.port.opts.upstream_servers
        rw [hs] at hne
        simpa [except_bind_ok, except_bind_error] using hne
      | ok servers =>
        cases htls : entry.port.opts.tls_termination with
        | some tls =>
          simp [except_bind_ok]
        | none =>
          rcases hside with hside | hside
          · exact absurd htls hside
          · simp [except_bind_ok, hside]

/-- An entry whose listen stack is just `/tls` (malformed: no ip/tcp). -/
def badTlsEntry : PortEntry := ⟨"p0", ⟨[Protocol.Tls], ⟨[], none⟩⟩⟩

/-- A well-formed `/ip4/0.0.0.0/tcp/443/tls` listen stack with no
termination block. -/
def goodTlsEntry : PortEntry :=
  ⟨"p2", ⟨[Protocol.Ip4 0, Protocol.Tcp 443, Protocol.Tls], ⟨[], none⟩⟩⟩

/-- **C7 counterexample.** `badTlsEntry`'s listen stack contains `/tls` and
declares no termination block, so the claim requires failure with
`TlsTerminationConfigMissing`; the code instead fails earlier with
`InvalidListeningAddress` because the stack has no ip/tcp prefix. -/
theorem C7_counterexample :
    TcpPortContext.new ⟨fun _ => none⟩ badTlsEntry =
      .error (.InvalidListeningAddress [Protocol.Tls]) ∧
    TcpPortContext.new ⟨fun _ => none⟩ badTlsEntry ≠
      .error .TlsTerminationConfigMissing ∧
    badTlsEntry.port.listen.any (· == Protocol.Tls) = true ∧
    badTlsEntry.port.opts.tls_termination = none := by
  refine ⟨rfl, ?_, by decide, rfl⟩
  intro h
  rw [show TcpPortContext.new ⟨fun _ => none⟩ badTlsEntry =
    .error (.InvalidListeningAddress [Protocol.Tls]) from rfl] at h
  simp at h

/-- Witness for C7: a well-formed `/tls` listen without a block does produce
`TlsTerminationConfigMissing`, and a listen without `/tls` never does. -/
theorem C7_tls_termination_missing_witness :
    TcpPortContext.new ⟨fun _ => none⟩ goodTlsEntry =
      .error .TlsTerminationConfigMissing ∧
    TcpPortContext.new ⟨fun _ => none⟩
      ⟨"p3", ⟨[Protocol.Ip4 0, Protocol.Tcp 80], ⟨[], none⟩⟩⟩ ≠
      .error .TlsTerminationConfigMissing :=
  ⟨(C7_tls_termination_missing.1 ⟨fun _ => none⟩ goodTlsEntry (by decide)
      (by decide)).2 ⟨by decide, rfl⟩,
   C7_tls_termination_missing.2 ⟨fun _ => none⟩ _ (Or.inr (by decide))⟩

/-! ## Listener pool (src/taxy/src/server/listener.rs) -/

/-- The `std::io::ErrorKind` values distinguished by the bind-error mapping;
every other kind is collapsed into `Other`. -/
inductive IOErrorKind where
  | AddrInUse
  | PermissionDenied
  | AddrNotAvailable
  | Other (code : Nat)
deriving DecidableEq, Repr

/-- The bind-failure mapping of listener.rs:102-107. -/
def mapBindError : IOErrorKind → SocketState
  | .AddrInUse => .PortAlreadyInUse
  | .PermissionDenied => .PermissionDenied
  | .AddrNotAvailable => .AddressNotAvailable
  | .Other _ => .Error

/-- `PortContextEvent` (the constructor name reproduces the source's
spelling). -/
inductive PortContextEvent where
  | SocketStateUpadted (state : SocketState)
deriving DecidableEq, Repr

/-- `PortContextKind` as consumed by the listener pool: TCP and HTTP contexts
carry their listen address; the synthetic reserved context (whose kind, from
`PortContext::reserved()` in the unprovided proxy module, is neither Tcp nor
Http) binds the reserved address. -/
inductive PortContextKind where
  | Tcp (listen : SocketAddr)
  | Http (listen : SocketAddr)
  | Reserved
deriving DecidableEq, Repr

/-- `RESERVED_ADDR`: `0.0.0.0:80`. -/
def RESERVED_ADDR : SocketAddr := ⟨.V4 0, 80⟩

/-- The address a context binds (listener.rs:80-84). -/
def PortContextKind.bindAddr : PortContextKind → SocketAddr
  | .Tcp s => s
  | .Http s => s
  | .Reserved => RESERVED_ADDR

/-- The contribution of a context to `used_addrs` (listener.rs:51-59):
only Tcp/Http kinds count. -/
def PortContextKind.usedAddr : PortContextKind → Option SocketAddr
  | .Tcp s => some s
  | .Http s => some s
  | .Reserved => none

/-- The OS bind operation, as an oracle: for each address either success or
an `io::ErrorKind`. -/
structure ListenerEnv where
  bind : SocketAddr → Except IOErrorKind Unit

/-- `TcpListenerPool`: bound listeners are represented by
`(index, local address)` pairs. -/
structure TcpListenerPool where
  listeners : List (Nat × SocketAddr)
  http_challenges : Bool

/-- Whether some configured port already binds the reserved port
(listener.rs:41-45). -/
def portUsesReservedPort (ports : List PortContextKind) : Bool :=
  ports.any (fun ctx => match ctx with
    | .Tcp s => s.port == RESERVED_ADDR.port
    | .Http s => s.port == RESERVED_ADDR.port
    | .Reserved => false)

/-- The per-context loop of `update` (listener.rs:74-117): reuse a retained
listener when one exists for the bind address, otherwise attempt a fresh
bind, mapping failure kinds through `mapBindError`; every context receives
exactly one `SocketStateUpadted` event. -/
def updateLoop (env : ListenerEnv) :
    List SocketAddr → Nat → List PortContextKind →
    List PortContextEvent × List (Nat × SocketAddr)
  | _, _, [] => ([], [])
  | avail, idx, ctx :: rest =>
    if avail.contains ctx.bindAddr then
      let next := updateLoop env (avail.erase ctx.bindAddr) (idx + 1) rest
      (.SocketStateUpadted .Listening :: next.1, (idx, ctx.bindAddr) :: next.2)
    else
      match env.bind ctx.bindAddr with
      | .ok _ =>
        let next := updateLoop env avail (idx + 1) rest
        (.SocketStateUpadted .Listening :: next.1, (idx, ctx.bindAddr) :: next.2)
      | .error k =>
        let next := updateLoop env avail (idx + 1) rest
        (.SocketStateUpadted (mapBindError k) :: next.1, next.2)

/-- `TcpListenerPool::update` (listener.rs:38-118): compute the reserved
context, retain listeners whose address is still used, then run the loop.
Returns the event delivered to each context (in context order: configured
first, reserved last) and the new pool. -/
def TcpListenerPool.update (env : ListenerEnv) (pool : TcpListenerPool)
    (ports : List PortContextKind) :
    List PortContextEvent × TcpListenerPool :=
  let reserved : List PortContextKind :=
    if pool.http_challenges && !(portUsesReservedPort ports) then [.Reserved]
    else []
  let allCtx := ports ++ reserved
  let used := allCtx.filterMap PortContextKind.usedAddr
  let avail := (pool.listeners.map Prod.snd).filter (fun a => used.contains a)
  let result := updateLoop env avail 0 allCtx
  (result.1, { pool with listeners := result.2 })

/-- With no retained listeners every context attempts a fresh bind, and the
event list is the pointwise image of the bind results. -/
theorem updateLoop_no_avail (env : ListenerEnv) (idx : Nat)
    (ctxs : List PortContextKind) :
    (updateLoop env [] idx ctxs).1 = ctxs.map (fun ctx =>
      .SocketStateUpadted (match env.bind ctx.bindAddr with
        | .ok _ => SocketState.Listening
        | .error k => mapBindError k)) := by
  induction ctxs generalizing idx with
  | nil => rfl
  | cons ctx rest ih =>
    unfold updateLoop
    simp only [List.contains, List.elem_nil, if_neg Bool.false_ne_true,
      List.map_cons]
    cases henv : env.bind ctx.bindAddr with
    | ok u => simpa using ih (idx + 1)
    | error k => simpa using ih (idx + 1)

/-- **C8 (confirmed).** Starting from a pool with no retained listeners,
`update` delivers exactly one `SocketStateUpadted` event per context
(configured ports first, then the optional reserved context), and the state
delivered to port `i` is determined solely by the outcome of binding its own
address: success gives `Listening`; failure maps `AddrInUse` to
`PortAlreadyInUse`, `PermissionDenied` to `PermissionDenied`,
`AddrNotAvailable` to `AddressNotAvailable`, anything else to `Error` —
independently of the other ports, which keep their own events. -/
theorem C8_bind_error_mapping (env : ListenerEnv) (hc : Bool)
    (ports : List PortContextKind) :
    ((TcpListenerPool.update env ⟨[], hc⟩ ports).1.length =
      ports.length +
        (if hc && !(portUsesReservedPort ports) then 1 else 0)) ∧
    (∀ i, i < ports.length →
      (TcpListenerPool.update env ⟨[], hc⟩ ports).1[i]? =
        some (.SocketStateUpadted
          (match env.bind (ports.getD i PortContextKind.Reserved).bindAddr with
            | .ok _ => SocketState.Listening
            | .error k => mapBindError k))) := by
  have hev : (TcpListenerPool.update env ⟨[], hc⟩ ports).1 =
      (ports ++ (if hc && !(portUsesReservedPort ports) then
        [PortContextKind.Reserved] else [])).map (fun ctx =>
          .SocketStateUpadted (match env.bind ctx.bindAddr with
            | .ok _ => SocketState.Listening
            | .error k => mapBindError k)) := by
    show (updateLoop env [] 0 (ports ++ (if hc && !(portUsesReservedPort ports)
      then [PortContextKind.Reserved] else []))).1 = _
    exact updateLoop_no_avail env 0 _
  constructor
  · rw [hev, List.length_map, List.length_append]
    split <;> simp
  · intro i hi
    rw [hev, List.getElem?_map, List.getElem?_append, if_pos hi,
      List.getElem?_eq_getElem hi]
    simp only [Option.map_some']
    rw [List.getD_eq_getElem _ _ hi]

/-- A bind oracle failing with a different error kind on each low port. -/
def bindOracle : ListenerEnv :=
  ⟨fun a =>
    if a.port = 1 then .error .AddrInUse
    else if a.port = 2 then .error .PermissionDenied
    else if a.port = 3 then .error .AddrNotAvailable
    else if a.port = 4 then .error (.Other 11)
    else .ok ()⟩

/-- Five TCP port contexts on ports 1-5. -/
def fivePorts : List PortContextKind :=
  [.Tcp ⟨.V4 0, 1⟩, .Tcp ⟨.V4 0, 2⟩, .Tcp ⟨.V4 0, 3⟩,
   .Tcp ⟨.V4 0, 4⟩, .Tcp ⟨.V4 0, 5⟩]

/-- Witness for C8: each failing port receives exactly the mapped state,
and the port whose bind succeeds still gets `Listening`. -/
theorem C8_bind_error_mapping_witness :
    (TcpListenerPool.update bindOracle ⟨[], false⟩ fivePorts).1.length = 5 ∧
    (TcpListenerPool.update bindOracle ⟨[], false⟩ fivePorts).1[0]? =
      some (.SocketStateUpadted .PortAlreadyInUse) ∧
    (TcpListenerPool.update bindOracle ⟨[], false⟩ fivePorts).1[1]? =
      some (.SocketStateUpadted .PermissionDenied) ∧
    (TcpListenerPool.update bindOracle ⟨[], false⟩ fivePorts).1[2]? =
      some (.SocketStateUpadted .AddressNotAvailable) ∧
    (TcpListenerPool.update bindOracle ⟨[], false⟩ fivePorts).1[3]? =
      some (.SocketStateUpadted .Error) ∧
    (TcpListenerPool.update bindOracle ⟨[], false⟩ fivePorts).1[4]? =
      some (.SocketStateUpadted .Listening) :=
  ⟨(C8_bind_error_mapping bindOracle false fivePorts).1,
   by rw [(C8_bind_error_mapping bindOracle false fivePorts).2 0 (by decide)]; decide,
   by rw [(C8_bind_error_mapping bindOracle false fivePorts).2 1 (by decide)]; decide,
   by rw [(C8_bind_error_mapping bindOracle false fivePorts).2 2 (by decide)]; decide,
   by rw [(C8_bind_error_mapping bindOracle false fivePorts).2 3 (by decide)]; decide,
   by rw [(C8_bind_error_mapping bindOracle false fivePorts).2 4 (by decide)]; decide⟩

/-! ## Certificate parsing (`Cert::new`, certs.rs:125-190) and SAN
matching (`Cert::has_subject_name`, certs.rs:108-123) -/

instance exceptDecEq {ε α : Type} [DecidableEq ε] [DecidableEq α] :
    DecidableEq (Except ε α)
  | .ok a, .ok b =>
    if h : a = b then isTrue (by rw [h]) else isFalse (by simp [h])
  | .ok _, .error _ => isFalse (by simp)
  | .error _, .ok _ => isFalse (by simp)
  | .error e, .error f =>
    if h : e = f then isTrue (by rw [h]) else isFalse (by simp [h])

/-- The sixteen lowercase hexadecimal digits, `0`-`9` then `a`-`f`,
computed from their code points. -/
def hexDigits : List Char :=
  (List.range 16).map (fun n =>
    if n < 10 then Char.ofNat (48 + n) else Char.ofNat (87 + n))

/-- One byte as two lowercase hex characters (high nibble first), as
`hex::encode` renders it. -/
def hexByte (b : Nat) : List Char :=
  [hexDigits.getD (b / 16 % 16) '0', hexDigits.getD (b % 16) '0']

/-- `hex::encode`: lowercase hexadecimal rendering of a byte string. -/
def hexEncode (bs : List Nat) : String :=
  ⟨(bs.map hexByte).flatten⟩

theorem hexDigit_mem (n : Nat) : hexDigits.getD n '0' ∈ hexDigits := by
  by_cases h : n < hexDigits.length
  · rw [List.getD_eq_getElem _ _ h]
    exact List.getElem_mem h
  · rw [List.getD_eq_default _ _ (Nat.le_of_not_lt h)]
    decide

/-- Every character `hex::encode` produces is a lowercase hex digit. -/
theorem hexEncode_lower (bs : List Nat) :
    ∀ ch ∈ (hexEncode bs).data, ch ∈ hexDigits := by
  intro ch hch
  unfold hexEncode at hch
  rw [show (String.mk ((bs.map hexByte).flatten)).data =
    (bs.map hexByte).flatten from rfl, List.mem_flatten] at hch
  obtain ⟨l, hl, hchl⟩ := hch
  rw [List.mem_map] at hl
  obtain ⟨b, _, rfl⟩ := hl
  cases hchl with
  | head => exact hexDigit_mem _
  | tail _ h =>
    cases h with
    | head => exact hexDigit_mem _
    | tail _ h => cases h

/-- The general names of the leaf's SAN extension, as x509-parser yields
them: DNS names are consumed, every other kind is skipped. -/
inductive GeneralName where
  | DNSName (name : String)
  | OtherName
deriving DecidableEq, Repr

/-- The fields of a parsed `X509Certificate` consumed by `Cert::new`. -/
structure X509 where
  generalNames : List GeneralName
  not_before : Int
  not_after : Int
  issuer : String
  subject : String
deriving DecidableEq, Repr

/-- External crate behaviour consumed by `Cert::new`, as an environment:
sha2's SHA-256, rustls-pemfile's PEM chain decoder, x509-parser, serde_qs's
deserializer into `CertMetadata`, pkcs8's `SecretDocument::from_pem`, and
taxy-api's `SubjectName::from_str`. -/
structure CertEnv where
  sha256 : List Nat → List Nat
  pemCerts : String → Except Unit (List (List Nat))
  parseX509 : List Nat → Except Unit X509
  parseQs : String → Option CertMetadata
  parsePkcs8 : String → Except Unit (List Nat)
  parseSubjectName : String → Option SubjectName

/-- The first line of the input including its terminating newline, or the
whole input when it has none. -/
def takeLine : List Char → List Char
  | [] => []
  | c :: cs => if c = '\n' then [c] else c :: takeLine cs

/-- `BufRead::read_line` on the chain bytes (the `String` model assumes
valid UTF-8, which `read_line` requires). -/
def firstLine (s : String) : String := ⟨takeLine s.data⟩

/-- `comment.trim_start_matches(|c| c == '#' || c.is_whitespace()).trim_end()`
(certs.rs:139-141); whitespace is the ASCII whitespace of `Char.isWhitespace`,
which agrees with Rust's on the ASCII PEM inputs at hand. -/
def trimComment (line : String) : String :=
  ⟨(((line.data.dropWhile (fun c => c == '#' || c.isWhitespace)).reverse.dropWhile
      (fun c => c.isWhitespace)).reverse)⟩

/-- `parse_chain` (certs.rs:278-286): parse every chain element as X.509 in
order, first failure wins. -/
def parse_chain (px : List Nat → Except Unit X509) :
    List (List Nat) → Except Unit (List X509)
  | [] => .ok []
  | d :: rest => do
    let c ← px d
    let cs ← parse_chain px rest
    .ok (c :: cs)

/-- `Cert::new` (certs.rs:125-190). -/
def Cert.new (env : CertEnv) (raw_chain raw_key : String) :
    Except Error Cert := do
  let key ← match env.parsePkcs8 raw_key with
    | .ok k => Except.ok k
    | .error _ => Except.error Error.FailedToDecryptPrivateKey
  let comment := firstLine raw_chain
  let metadata : Option CertMetadata := env.parseQs (trimComment comment)
  let chain ← match env.pemCerts raw_chain with
    | .ok c => Except.ok c
    | .error _ => Except.error Error.FailedToReadCertificate
  let der ← match chain.head? with
    | some d => Except.ok d
    | none => Except.error Error.FailedToReadCertificate
  let fingerprint := hexEncode (env.sha256 der)
  let parsed_chain ← match parse_chain env.parseX509 chain with
    | .ok p => Except.ok p
    | .error _ => Except.error Error.FailedToReadCertificate
  let x509 ← match parsed_chain.head? with
    | some x => Except.ok x
    | none => Except.error Error.FailedToReadCertificate
  let san : List SubjectName := x509.generalNames.filterMap (fun gn =>
    match gn with
    | .DNSName n => env.parseSubjectName n
    | .OtherName => none)
  let root_cert : Option String :=
    ((parsed_chain.getLast?).filter (fun _ => decide (1 < chain.length))).map
      X509.subject
  Except.ok { id := takePrefix fingerprint CERT_ID_LENGTH, key := key,
              raw_chain := raw_chain, raw_key := raw_key,
              fingerprint := fingerprint, issuer := x509.issuer,
              root_cert := root_cert, san := san,
              not_after := x509.not_after, not_before := x509.not_before,
              metadata := metadata }

/-- **C4 (confirmed).** Every certificate `Cert::new` produces has
`fingerprint = hex(sha256(der))` where `der` is the first element of the
PEM-decoded chain, every fingerprint character is a lowercase hex digit, and
the identifier is the first 20 characters of the fingerprint. -/
theorem C4_fingerprint (env : CertEnv) (raw_chain raw_key : String)
    (cert : Cert) (h : Cert.new env raw_chain raw_key = .ok cert) :
    ∃ ders d, env.pemCerts raw_chain = .ok ders ∧ ders.head? = some d ∧
      cert.fingerprint = hexEncode (env.sha256 d) ∧
      (∀ ch ∈ cert.fingerprint.data, ch ∈ hexDigits) ∧
      cert.id = takePrefix cert.fingerprint CERT_ID_LENGTH := by
  unfold Cert.new at h
  cases hkey : env.parsePkcs8 raw_key with
  | error e => simp [hkey, except_bind_error] at h
  | ok key =>
    simp only [hkey, except_bind_ok] at h
    cases hpem : env.pemCerts raw_chain with
    | error e => simp [hpem, except_bind_error] at h
    | ok chain =>
      simp only [hpem, except_bind_ok] at h
      cases hhead : chain.head? with
      | none => simp [hhead, except_bind_error] at h
      | some d =>
        simp only [hhead, except_bind_ok] at h
        cases hpc : parse_chain env.parseX509 chain with
        | error e => simp [hpc, except_bind_error] at h
        | ok parsed =>
          simp only [hpc, except_bind_ok] at h
          cases hx : parsed.head? with
          | none => simp [hx, except_bind_error] at h
          | some x =>
            simp only [hx, except_bind_ok, Except.ok.injEq] at h
            subst h
            exact ⟨chain, d, rfl, hhead, rfl, hexEncode_lower _, rfl⟩

/-- **C6 (amended).** The first line of the chain bytes is stripped of
*all leading `'#'` and whitespace characters* (not conditionally on a
leading `'#'`), trimmed at the end, and handed to the URL-query decoder;
the certificate's metadata is exactly that decoder's result, so a malformed
comment (decoder returns nothing) yields `metadata = None` while parsing
still succeeds — indeed success of `Cert::new` is independent of the
decoder's behaviour. The claim's "decoded only if it begins with `'#'`" is
wrong: the decode is attempted on every first line. -/
theorem C6_metadata_comment (env : CertEnv) (q : String → Option CertMetadata)
    (raw_chain raw_key : String) :
    (∀ cert, Cert.new env raw_chain raw_key = .ok cert →
      cert.metadata = env.parseQs (trimComment (firstLine raw_chain))) ∧
    (Cert.new { env with parseQs := q } raw_chain raw_key).isOk =
      (Cert.new env raw_chain raw_key).isOk := by
  constructor
  · intro cert h
    unfold Cert.new at h
    cases hkey : env.parsePkcs8 raw_key with
    | error e => simp [hkey, except_bind_error] at h
    | ok key =>
      simp only [hkey, except_bind_ok] at h
      cases hpem : env.pemCerts raw_chain with
      | error e => simp [hpem, except_bind_error] at h
      | ok chain =>
        simp only [hpem, except_bind_ok] at h
        cases hhead : chain.head? with
        | none => simp [hhead, except_bind_error] at h
        | some d =>
          simp only [hhead, except_bind_ok] at h
          cases hpc : parse_chain env.parseX509 chain with
          | error e => simp [hpc, except_bind_error] at h
          | ok parsed =>
            simp only [hpc, except_bind_ok] at h
            cases hx : parsed.head? with
            | none => simp [hx, except_bind_error] at h
            | some x =>
              simp only [hx, except_bind_ok, Except.ok.injEq] at h
              subst h
              rfl
  · unfold Cert.new
    cases hkey : env.parsePkcs8 raw_key with
    | error e => simp [hkey, except_bind_error]
    | ok key =>
      simp only [hkey, except_bind_ok]
      cases hpem : env.pemCerts raw_chain with
      | error e => simp [hpem, except_bind_error]
      | ok chain =>
        simp only [hpem, except_bind_ok]
        cases hhead : chain.head? with
        | none => simp [hhead, except_bind_error]
        | some d =>
          simp only [hhead, except_bind_ok]
          cases hpc : parse_chain env.parseX509 chain with
          | error e => simp [hpc, except_bind_error]
          | ok parsed =>
            simp only [hpc, except_bind_ok]
            cases hx : parsed.head? with
            | none => simp [hx, except_bind_error]
            | some x =>
              simp only [hx, except_bind_ok]
              rfl

/-- A leaf with one DNS SAN. -/
def x509C : X509 := ⟨[.DNSName "example.com"], 10, 20, "CN=ca", "CN=ca"⟩

/-- A concrete environment whose behaviour on the inputs below matches the
real crates: serde_qs deserializes `"acme_id=foo&created_at=1"` into
`CertMetadata` (and nothing else we feed it), rustls-pemfile skips non-PEM
leading lines and yields one DER, sha2 yields the digest bytes `de ad`. -/
def envC : CertEnv :=
  { sha256 := fun _ => [222, 173],
    pemCerts := fun _ => .ok [[48, 1]],
    parseX509 := fun _ => .ok x509C,
    parseQs := fun s =>
      if s = "acme_id=foo&created_at=1" then some ⟨"foo", 1, false⟩ else none,
    parsePkcs8 := fun _ => .ok [9],
    parseSubjectName := fun n => some (.DnsName n) }

/-- Chain bytes whose first line is a metadata query string *without* a
leading `'#'`, followed by a PEM block. -/
def chainC : String := "acme_id=foo&created_at=1\n-----BEGIN CERTIFICATE-----\n"

/-- The certificate `Cert::new envC chainC "key"` produces. -/
def certC : Cert :=
  { id := "dead", key := [9], raw_chain := chainC, raw_key := "key",
    fingerprint := "dead", issuer := "CN=ca", root_cert := none,
    san := [.DnsName "example.com"], not_after := 20, not_before := 10,
    metadata := some ⟨"foo", 1, false⟩ }

/-- Witness for C4 at the concrete environment and chain. -/
theorem C4_fingerprint_witness :
    ∃ ders d, envC.pemCerts chainC = .ok ders ∧ ders.head? = some d ∧
      certC.fingerprint = hexEncode (envC.sha256 d) ∧
      (∀ ch ∈ certC.fingerprint.data, ch ∈ hexDigits) ∧
      certC.id = takePrefix certC.fingerprint CERT_ID_LENGTH :=
  C4_fingerprint envC chainC "key" certC (by decide)

/-- **C6 counterexample.** The first line of `chainC` begins with `'a'`,
not `'#'`, yet parsing succeeds with `metadata = Some {acme_id = "foo", …}`:
the query decode is *not* conditional on a leading `'#'` as the claim
states. -/
theorem C6_counterexample :
    (firstLine chainC).data.head? = some 'a' ∧
    ('a' = '#' → False) ∧
    Cert.new envC chainC "key" = .ok certC ∧
    certC.metadata = some ⟨"foo", 1, false⟩ :=
  ⟨by decide, by decide, by decide, rfl⟩

/-- Witness for C6 at the concrete environment and chain. -/
theorem C6_metadata_comment_witness :
    certC.metadata = envC.parseQs (trimComment (firstLine chainC)) ∧
    (Cert.new { envC with parseQs := fun _ => none } chainC "key").isOk =
      (Cert.new envC chainC "key").isOk :=
  ⟨(C6_metadata_comment envC (fun _ => none) chainC "key").1 certC (by decide),
   (C6_metadata_comment envC (fun _ => none) chainC "key").2⟩

/-- `n.trim_start_matches(|c| c != '.').trim_start_matches('.')`
(certs.rs:113): the query name with its first label and the following run of
dots stripped. -/
def stripFirstLabel (s : String) : String :=
  ⟨(s.data.dropWhile (fun c => c != '.')).dropWhile (fun c => c == '.')⟩

/-- The per-SAN match arms of `Cert::has_subject_name` (certs.rs:110-117). -/
def sanMatches (san name : SubjectName) : Bool :=
  match san, name with
  | .DnsName c, .DnsName n => c == n
  | .WildcardDnsName c, .DnsName n => c == stripFirstLabel n
  | .WildcardDnsName c, .WildcardDnsName n => c == n
  | .IPAddress c, .IPAddress n => c == n
  | _, _ => false

/-- `Cert::has_subject_name` (certs.rs:108-123): the for-loop with early
return over the SAN list. -/
def Cert.has_subject_name (cert : Cert) (name : SubjectName) : Bool :=
  cert.san.any (fun san => sanMatches san name)

/-- The matching rules exactly as the claim words them: both exact DNS and
equal; wildcard SAN vs concrete DNS when the SAN's suffix equals the query
with its first label stripped; wildcard vs wildcard equal; IP vs IP equal;
nothing else. -/
def claimSanMatch (san name : SubjectName) : Prop :=
  (∃ d, san = .DnsName d ∧ name = .DnsName d) ∨
  (∃ c n, san = .WildcardDnsName c ∧ name = .DnsName n ∧
    c = stripFirstLabel n) ∨
  (∃ w, san = .WildcardDnsName w ∧ name = .WildcardDnsName w) ∨
  (∃ ip, san = .IPAddress ip ∧ name = .IPAddress ip)

theorem sanMatches_iff (san name : SubjectName) :
    sanMatches san name = true ↔ claimSanMatch san name := by
  cases san <;> cases name <;>
    simp [sanMatches, claimSanMatch, beq_iff_eq] <;> aesop

/-- **C5 (confirmed).** `has_subject_name(name)` returns true iff some SAN
of the certificate matches `name` under the claim's rules. -/
theorem C5_has_subject_name (cert : Cert) (name : SubjectName) :
    cert.has_subject_name name = true ↔
      ∃ san ∈ cert.san, claimSanMatch san name := by
  unfold Cert.has_subject_name
  rw [List.any_eq_true]
  constructor
  · rintro ⟨san, hmem, hmatch⟩
    exact ⟨san, hmem, (sanMatches_iff san name).1 hmatch⟩
  · rintro ⟨san, hmem, hmatch⟩
    exact ⟨san, hmem, (sanMatches_iff san name).2 hmatch⟩

end Taxy
